import Mathlib

/-!
# Verification of the Smart Farming Assistant recommendation core

A shallow embedding of the recommendation scoring engine:
* `controllers/crop_routes.py` — crop categorization and the rule-based crop scorer;
* `controllers/fertilizer_routes.py` — fertilizer categorization, the rule-based
  fertilizer scorer, and the recommendation route logic;
* `ml_models/model_integration.py` — the dual-mode crop predictor;
* `ml_models/predict.py` — the statistical fertilizer predictor.

Python floats are modelled as rationals; stateful exception handling is modelled
by passing the outcome of the fallible scoring step as an explicit argument.
Python's stable `list.sort` is modelled by a stable insertion sort, and
`np.argsort` by a stable ascending index sort (ties by increasing index).
-/

namespace SmartFarm

/-! ## String helpers modelling Python primitives -/

/-- Python whitespace test used by `str.strip` (ASCII whitespace suffices for the
fixed tables in this code base). -/
def isSpaceChar (c : Char) : Bool :=
  c = ' ' || c = '\t' || c = '\n' || c = '\r'

/-- Python `str.strip()` over a character list. -/
def stripChars (l : List Char) : List Char :=
  ((l.dropWhile isSpaceChar).reverse.dropWhile isSpaceChar).reverse

/-- Model of `name.lower().strip()`: the normalisation applied by both category lookups. -/
def normName (s : String) : List Char :=
  stripChars (s.toList.map Char.toLower)

/-- Python's substring test `needle in hay`. -/
def hasSub (needle : List Char) : List Char → Bool
  | [] => needle.isEmpty
  | c :: t => needle.isPrefixOf (c :: t) || hasSub needle t

/-- Python's `str.capitalize()`: first character upper-cased, the rest lower-cased. -/
def pyCapitalize (s : String) : String :=
  match s.toList with
  | [] => ""
  | c :: t => String.mk (c.toUpper :: t.map Char.toLower)

/-! ## Python `round` (banker's rounding) -/

/-- Round half to even of a rational to an integer, as Python's `round(x)`. -/
def rhe (x : ℚ) : ℤ :=
  if x - Int.floor x < 1/2 then Int.floor x
  else if 1/2 < x - Int.floor x then Int.floor x + 1
  else if Int.floor x % 2 = 0 then Int.floor x else Int.floor x + 1

/-- Python's `round(x, 1)`. -/
def round1 (x : ℚ) : ℚ := (rhe (x * 10) : ℚ) / 10

/-! ## Stable sorting, modelling Python `list.sort` and `np.argsort` -/

/-- Insert `x` into `l`, placing it before the first `y` with `p x y`. -/
def insertOrd (p : α → α → Bool) (x : α) : List α → List α
  | [] => [x]
  | y :: t => if p x y then x :: y :: t else y :: insertOrd p x t

/-- Stable sort: elements are inserted in input order, and an element only
jumps over entries it strictly precedes, so equal keys keep input order. -/
def pySortOrd (p : α → α → Bool) (l : List α) : List α :=
  l.foldl (fun acc x => insertOrd p x acc) []

/-- Python's `list.sort(key=key, reverse=True)`. -/
def pySortDesc (key : α → ℚ) : List α → List α :=
  pySortOrd (fun x y => decide (key y < key x))

/-- Stable ascending sort by a rational key. -/
def pySortAsc (key : α → ℚ) : List α → List α :=
  pySortOrd (fun x y => decide (key x < key y))

/-- Probability vector entry lookup (out of range reads give 0). -/
def getQ (l : List ℚ) (i : ℕ) : ℚ := l.getD i 0

/-- Model of `np.argsort(probs)`: indices in ascending order of value (stable model). -/
def argsortAsc (probs : List ℚ) : List ℕ :=
  pySortAsc (getQ probs) (List.range probs.length)

/-- Python's `l[-n:]`. -/
def takeLast (n : ℕ) (l : List α) : List α := l.drop (l.length - n)

/-! ## Crop categorization — `crop_routes.py`, `get_crop_category` (lines 11–27) -/

/-- The fixed crop category table, in source (dict insertion) order. -/
def cropCategories : List (String × List String) :=
  [("Fruits", ["apple", "banana", "grapes", "mango", "muskmelon", "orange",
               "papaya", "pomegranate", "watermelon", "coconut"]),
   ("Pulses & Vegetables", ["pigeonpeas", "kidneybeans", "mothbeans", "mungbean",
               "blackgram", "lentil", "chickpea"]),
   ("Grains & Cereals", ["rice", "wheat", "maize"]),
   ("Commercial Crops", ["cotton", "jute", "coffee", "tea"])]

/-- The function `get_crop_category`: lowercase and strip, then look for an EXACT match
(`crop_name in crops` is list membership, i.e. string equality) in table order;
unmatched names get the catch-all. -/
def get_crop_category (crop_name : String) : String :=
  match cropCategories.find?
      (fun kv => kv.2.any (fun e => e.toList == normName crop_name)) with
  | some kv => kv.1
  | none => "Other Crops"

/-- Preferred display order of crop categories (`crop_routes.py` line 96). -/
def cropPreferredOrder : List String :=
  ["Grains & Cereals", "Pulses & Vegetables", "Fruits", "Commercial Crops", "Other Crops"]

/-! ## Fertilizer categorization — `fertilizer_routes.py`, `get_fertilizer_category` -/

/-- The fixed fertilizer category table, in source order. -/
def fertCategories : List (String × List String) :=
  [("Nitrogenous", ["urea", "ammonium sulfate", "calcium ammonium nitrate"]),
   ("Phosphatic", ["dap", "single super phosphate", "triple super phosphate"]),
   ("Potassic", ["mop", "muriate of potash", "sulfate of potash"]),
   ("Complex (NPK)", ["npk", "balanced npk fertilizer", "19-19-19", "20-20-0-13", "10-26-26"]),
   ("Organic & Soil Amendments", ["compost", "organic fertilizer", "lime", "gypsum",
               "water retaining fertilizer"])]

/-- The function `get_fertilizer_category`: lowercase and strip, then look for a SUBSTRING
match (`any(f in fetilizer_name ...)`) in table order; unmatched names get the
catch-all. -/
def get_fertilizer_category (fertilizer_name : String) : String :=
  match fertCategories.find?
      (fun kv => kv.2.any (fun e => hasSub e.toList (normName fertilizer_name))) with
  | some kv => kv.1
  | none => "Other Fertilizers"

/-- Preferred display order of fertilizer categories (`fertilizer_routes.py` line 272). -/
def fertPreferredOrder : List String :=
  ["Organic & Soil Amendments", "Complex (NPK)", "Nitrogenous", "Phosphatic",
   "Potassic", "Other Fertilizers"]

/-! ## The categorization loop shared by both routes
(`crop_routes.py` lines 86–103, `fertilizer_routes.py` lines 263–278):
append each recommendation to its category bucket (buckets created in
first-seen order), then re-emit buckets in the preferred order followed by
any remaining buckets in first-seen order. -/

/-- Append `r` to the bucket of `cat`, creating the bucket at the end if absent
(Python dict insertion-order semantics). -/
def addToCategory (cat : String) (r : α) : List (String × List α) → List (String × List α)
  | [] => [(cat, [r])]
  | (k, l) :: t =>
      if k = cat then (k, l ++ [r]) :: t else (k, l) :: addToCategory cat r t

/-- The categorization loop: one pass over the recommendations. -/
def categorize (getCat : α → String) (recs : List α) : List (String × List α) :=
  recs.foldl (fun acc r => addToCategory (getCat r) r acc) []

/-- First value bound to key `k` in an association list. -/
def lookupKey (k : String) : List (String × β) → Option β
  | [] => none
  | (q, v) :: t => if q = k then some v else lookupKey k t

/-- Re-emit the buckets in preferred order, then the remaining buckets in
first-seen order (the `sorted_categorized` construction in both routes). -/
def reorderCats (preferred : List String) (cats : List (String × List α)) :
    List (String × List α) :=
  preferred.filterMap (fun k => (lookupKey k cats).map (fun l => (k, l)))
    ++ cats.filter (fun kv => !preferred.contains kv.1)

/-- The full categorization layer of a route. -/
def categorizedView (getCat : α → String) (preferred : List String) (recs : List α) :
    List (String × List α) :=
  reorderCats preferred (categorize getCat recs)

/-- Concatenation of all category buckets, in emitted order. -/
def joinVals : List (String × List α) → List α
  | [] => []
  | kv :: t => kv.2 ++ joinVals t

/-! ## Rule-based crop scorer — `crop_routes.py`, `generate_fallback_recommendations`
(lines 134–235) -/

/-- A crop recommendation record (`{name, probability, confidence_percentage, priority}`). -/
structure CropRec where
  name : String
  probability : ℚ
  confidence_percentage : ℚ
  priority : String
deriving Repr, DecidableEq

/-- The seven measurements taken by the crop pipeline. -/
structure CropInputs where
  nitrogen : ℚ
  phosphorous : ℚ
  potassium : ℚ
  temperature : ℚ
  humidity : ℚ
  ph : ℚ
  rainfall : ℚ
deriving Repr, DecidableEq

/-- Accepted ranges for one catalog crop.  In the source every crop adds the
same weights per measurement (0.2, 0.15, 0.15, 0.2, 0.15, 0.1, 0.05); only the
range bounds differ, so the six scoring blocks share one shape. -/
structure CropRanges where
  name : String
  nLo : ℚ
  nHi : ℚ
  pLo : ℚ
  pHi : ℚ
  kLo : ℚ
  kHi : ℚ
  tLo : ℚ
  tHi : ℚ
  hLo : ℚ
  hHi : ℚ
  phLo : ℚ
  phHi : ℚ
  rLo : ℚ
  rHi : ℚ

/-- Test `lo <= x <= hi`. -/
def inR (lo hi x : ℚ) : Bool := decide (lo ≤ x) && decide (x ≤ hi)

/-- One crop's raw score: weighted credit for each measurement inside its range. -/
def cropRangeScore (c : CropRanges) (i : CropInputs) : ℚ :=
  (if inR c.nLo c.nHi i.nitrogen then 2/10 else 0)
  + (if inR c.pLo c.pHi i.phosphorous then 15/100 else 0)
  + (if inR c.kLo c.kHi i.potassium then 15/100 else 0)
  + (if inR c.tLo c.tHi i.temperature then 2/10 else 0)
  + (if inR c.hLo c.hHi i.humidity then 15/100 else 0)
  + (if inR c.phLo c.phHi i.ph then 1/10 else 0)
  + (if inR c.rLo c.rHi i.rainfall then 5/100 else 0)

def riceRanges : CropRanges :=
  ⟨"Rice", 80, 120, 35, 60, 35, 45, 20, 30, 80, 95, 55/10, 7, 150, 300⟩

def wheatRanges : CropRanges :=
  ⟨"Wheat", 70, 100, 40, 60, 35, 50, 15, 25, 55, 75, 6, 75/10, 75, 180⟩

def maizeRanges : CropRanges :=
  ⟨"Maize", 70, 100, 40, 60, 15, 25, 18, 27, 55, 75, 55/10, 7, 60, 110⟩

def cottonRanges : CropRanges :=
  ⟨"Cotton", 100, 150, 35, 60, 15, 30, 21, 30, 70, 85, 58/10, 8, 50, 100⟩

def juteRanges : CropRanges :=
  ⟨"Jute", 60, 100, 35, 60, 35, 50, 24, 37, 80, 95, 6, 75/10, 120, 200⟩

def bananaRanges : CropRanges :=
  ⟨"Banana", 80, 120, 70, 100, 45, 60, 26, 32, 75, 90, 65/10, 75/10, 75, 150⟩

/-- The fixed fallback catalog, in source append order. -/
def fallbackCrops : List CropRanges :=
  [riceRanges, wheatRanges, maizeRanges, cottonRanges, juteRanges, bananaRanges]

/-- The `crops_scores` list of `(name, score)` pairs before sorting. -/
def cropsScores (i : CropInputs) : List (String × ℚ) :=
  fallbackCrops.map (fun c => (c.name, cropRangeScore c i))

/-- Build one output record from a scored crop:
`confidence = min(max(score*100, 30), 95)`, priority by 70/50 thresholds,
`probability = confidence / 100`. -/
def mkFallbackRec (cs : String × ℚ) : CropRec :=
  let confidence := min (max (cs.2 * 100) 30) 95
  { name := cs.1
    probability := confidence / 100
    confidence_percentage := confidence
    priority := if 70 ≤ confidence then "High"
                else if 50 ≤ confidence then "Medium" else "Low" }

/-- The function `generate_fallback_recommendations`: score the six catalog crops, sort by
score descending (stable), then build the output records. -/
def generate_fallback_recommendations (i : CropInputs) : List CropRec :=
  (pySortDesc (fun cs => cs.2) (cropsScores i)).map mkFallbackRec

/-! ## Dual-mode crop predictor — `ml_models/model_integration.py`,
`CropPredictor.predict_crop_recommendation` (lines 41–99) -/

/-- The result object of `predict_crop_recommendation`. -/
structure CropResult where
  recommended_crop : String
  top_recommendations : List CropRec
  input_parameters : CropInputs
deriving Repr, DecidableEq

/-- Outcome of the fallible scoring step inside the `try` block.  `sklearnOk`
carries the label predicted by `model.predict` and the zipped
`(class name, probability)` distribution from `model.predict_proba`; `exn` is
any exception raised while scoring.  The `else` branch calls
`self.simple_model.predict_crop_recommendation`, but `ml_models.crop_model_simple`
does not exist in this repository, so that attribute access always raises and is
absorbed into `exn` by the handler. -/
inductive CropScoring where
  | sklearnOk (predicted : String) (classes : List (String × ℚ))
  | exn
deriving Repr, DecidableEq

/-- One entry of the statistical-mode ranking (loop at lines 56–62). -/
def statCropRec (cp : String × ℚ) : CropRec :=
  { name := pyCapitalize cp.1
    probability := cp.2
    confidence_percentage := cp.2 * 100
    priority := if 7/10 < cp.2 then "High"
                else if 4/10 < cp.2 then "Medium" else "Low" }

/-- The hardcoded generic fallback returned by the exception handler
(lines 88–99). -/
def fallbackCropResult (i : CropInputs) : CropResult :=
  { recommended_crop := "Rice"
    top_recommendations :=
      [{ name := "Rice", probability := 85/100, confidence_percentage := 85,
         priority := "High" },
       { name := "Wheat", probability := 70/100, confidence_percentage := 70,
         priority := "Medium" },
       { name := "Maize", probability := 60/100, confidence_percentage := 60,
         priority := "Medium" }]
    input_parameters := i }

/-- The method `predict_crop_recommendation`: rank all classes by probability descending
(stable sort), keep the top 6, echo the inputs; on any exception return the
hardcoded fallback.  Total by construction — the Python function catches every
exception, so it never raises. -/
def predict_crop_recommendation (i : CropInputs) : CropScoring → CropResult
  | .sklearnOk predicted classes =>
      let crop_probabilities := classes.map statCropRec
      { recommended_crop := pyCapitalize predicted
        top_recommendations :=
          (pySortDesc (fun r => r.probability) crop_probabilities).take 6
        input_parameters := i }
  | .exn => fallbackCropResult i

/-! ## Rule-based fertilizer scorer — `fertilizer_routes.py`,
`generate_fertilizer_recommendations` (lines 28–161) -/

/-- A fertilizer recommendation record produced by the route. -/
structure FertRec where
  name : String
  dosage : String
  usage : String
  note : String
  probability : ℚ
  confidence_percentage : ℚ
  priority : String
deriving Repr, DecidableEq

/-- One entry of the fixed 7-fertilizer catalog. -/
structure FertCandidate where
  name : String
  dosage : String
  usage : String
  note : String
  n_content : ℚ
  p_content : ℚ
  k_content : ℚ
deriving Repr, DecidableEq

/-- The `candidates` catalog (lines 44–94), in source order. -/
def fertCandidates : List FertCandidate :=
  [{ name := "Urea (46-0-0)", dosage := "50-100 kg/acre",
     usage := "Apply in split doses: 50% at sowing, 25% at tillering, 25% at flowering",
     note := "Best nitrogen source for rapid vegetative growth",
     n_content := 46, p_content := 0, k_content := 0 },
   { name := "DAP (18-46-0)", dosage := "75-125 kg/acre",
     usage := "Apply at time of sowing or transplanting for root development",
     note := "Excellent phosphorus source, also provides nitrogen",
     n_content := 18, p_content := 46, k_content := 0 },
   { name := "MOP (0-0-60)", dosage := "50-75 kg/acre",
     usage := "Apply during flowering and fruit formation stage",
     note := "High potassium for fruit quality and disease resistance",
     n_content := 0, p_content := 0, k_content := 60 },
   { name := "NPK 19-19-19", dosage := "100-150 kg/acre",
     usage := "Apply as basal dose or during active growth phase",
     note := "Balanced fertilizer for overall plant nutrition",
     n_content := 19, p_content := 19, k_content := 19 },
   { name := "NPK 20-20-0-13", dosage := "125-175 kg/acre",
     usage := "Apply when both N and P are needed with sulfur benefit",
     note := "Contains sulfur (13%) for protein synthesis",
     n_content := 20, p_content := 20, k_content := 0 },
   { name := "Single Super Phosphate", dosage := "100-200 kg/acre",
     usage := "Mix with soil before planting for root development",
     note := "Provides phosphorus and sulfur for early growth",
     n_content := 0, p_content := 16, k_content := 0 },
   { name := "Organic Compost", dosage := "2-5 tons/acre",
     usage := "Apply 2-3 weeks before sowing and mix well with soil",
     note := "Improves soil structure, water retention, and microbial activity",
     n_content := 2, p_content := 1, k_content := 1 }]

/-- The raw score of one candidate (lines 97–133): nutrient-matching credit,
the balanced-NPK bonus, environmental bonuses and crop-affinity bonuses,
accumulated in source order.  `crop_type.lower() if crop_type else ''` is just
`crop_type.lower()` since lowering the empty string is the empty string. -/
def fertScore (crop_type : String) (n p k temperature soil_moisture : ℚ)
    (f : FertCandidate) : ℚ :=
  let n_deficit := max 0 (100 - n)
  let p_deficit := max 0 (60 - p)
  let k_deficit := max 0 (50 - k)
  let dry_soil := soil_moisture < 40
  let wet_soil := 70 < soil_moisture
  let high_temp := 30 < temperature
  let low_temp := temperature < 15
  let deficits : ℕ := (if 20 < n_deficit then 1 else 0)
    + (if 15 < p_deficit then 1 else 0) + (if 15 < k_deficit then 1 else 0)
  let crop_lower := crop_type.toList.map Char.toLower
  (if 0 < n_deficit ∧ 0 < f.n_content then min 30 (n_deficit / 100 * f.n_content) else 0)
  + (if 0 < p_deficit ∧ 0 < f.p_content then min 25 (p_deficit / 60 * f.p_content) else 0)
  + (if 0 < k_deficit ∧ 0 < f.k_content then min 15 (k_deficit / 50 * f.k_content) else 0)
  + (if 2 ≤ deficits ∧ hasSub "NPK".toList f.name.toList then 15 else 0)
  + (if dry_soil ∧ hasSub "Organic".toList f.name.toList then 10 else 0)
  + (if wet_soil ∧ ¬ hasSub "Urea".toList f.name.toList then 5 else 0)
  + (if high_temp ∧ 0 < f.k_content then 5 else 0)
  + (if low_temp ∧ hasSub "DAP".toList f.name.toList then 5 else 0)
  + (if (hasSub "rice".toList crop_lower ∨ hasSub "wheat".toList crop_lower)
        ∧ hasSub "Urea".toList f.name.toList then 8 else 0)
  + (if (hasSub "potato".toList crop_lower ∨ hasSub "tomato".toList crop_lower)
        ∧ 0 < f.k_content then 8 else 0)
  + (if (hasSub "legume".toList crop_lower ∨ hasSub "pulse".toList crop_lower)
        ∧ 0 < f.p_content then 8 else 0)

/-- Build one output record from a scored candidate (lines 135–155):
`final_score = min(100, score)`, `confidence = round(final_score, 1)`,
priority by the 70/45 thresholds on the rounded confidence,
`probability = final_score / 100`. -/
def mkFertRec (crop_type : String) (n p k temperature soil_moisture : ℚ)
    (f : FertCandidate) : FertRec :=
  let final_score := min 100 (fertScore crop_type n p k temperature soil_moisture f)
  let confidence := round1 final_score
  { name := f.name, dosage := f.dosage, usage := f.usage, note := f.note
    probability := final_score / 100
    confidence_percentage := confidence
    priority := if 70 ≤ confidence then "High"
                else if 45 ≤ confidence then "Medium" else "Low" }

/-- The function `generate_fertilizer_recommendations(crop_type, n, p, k, temperature,
humidity, soil_moisture)`: score every catalog candidate, sort by confidence
descending (stable), return the top 6.  The `humidity` parameter is accepted
but never read by the source function. -/
def generate_fertilizer_recommendations (crop_type : String)
    (n p k temperature humidity soil_moisture : ℚ) : List FertRec :=
  let _ := humidity
  let recommendations := fertCandidates.map (mkFertRec crop_type n p k temperature soil_moisture)
  (pySortDesc (fun r => r.confidence_percentage) recommendations).take 6

/-! ## Statistical fertilizer predictor — `ml_models/predict.py`,
`FertilizerPredictor.predict` (lines 33–104) -/

/-- The detail strings pulled from the static fertilizer knowledge base
(`get_fertilizer_details.py`); its content is CSV data, so the lookup is kept
abstract as a function from fertilizer name to four strings. -/
structure FertDetail where
  effectiveness : String
  dosage : String
  use_case : String
  remark : String
deriving Repr, DecidableEq

/-- One entry of the ML ranking (loop at lines 76–86). -/
structure MLFertRec where
  fertilizer : String
  confidence : ℚ
  rank : ℕ
  effectiveness : String
  dosage : String
  use : String
  notes : String
deriving Repr, DecidableEq

/-- The dictionary returned by `FertilizerPredictor.predict`.  The success and
failure branches of the Python function return different key sets; here the
keys absent from the failure branch are carried with empty defaults. -/
structure FertPredictResult where
  success : Bool
  error : String
  recommended_fertilizer : String
  confidence : ℚ
  effectiveness : String
  dosage : String
  notes : String
  top_recommendations : List MLFertRec
deriving Repr, DecidableEq

/-- Outcome of the fallible encode/scale/classify step inside the `try` block:
`ok` carries the predicted label, the label vocabulary of the target encoder
(`inverse_transform` is positional lookup in it) and the probability vector
from `predict_proba`; `exn msg` is any exception — in particular an unseen
`Soil` or `Crop` category failing `label_encoders[col].transform`. -/
inductive FertScoring where
  | ok (predicted : String) (labels : List String) (probs : List ℚ)
  | exn (msg : String)
deriving Repr, DecidableEq

/-- The method `FertilizerPredictor.predict`: on success take the 6 highest-probability
label indices via `np.argsort(probabilities)[-6:][::-1]`, enrich each with the
knowledge-base details; on any exception return `{success: false, error: msg}`. -/
def FertilizerPredictor.predict (details : String → FertDetail) :
    FertScoring → FertPredictResult
  | .ok predicted labels probs =>
      let top_n_idx := (takeLast 6 (argsortAsc probs)).reverse
      let recommendations := top_n_idx.enum.map (fun ir =>
        let fert := labels.getD ir.2 ""
        let d := details fert
        { fertilizer := fert
          confidence := getQ probs ir.2 * 100
          rank := ir.1 + 1
          effectiveness := d.effectiveness
          dosage := d.dosage
          use := d.use_case
          notes := d.remark : MLFertRec })
      let main := details predicted
      { success := true, error := ""
        recommended_fertilizer := predicted
        confidence := getQ probs (labels.indexOf predicted) * 100
        effectiveness := main.effectiveness
        dosage := main.dosage
        notes := main.remark
        top_recommendations := recommendations }
  | .exn msg =>
      { success := false, error := msg
        recommended_fertilizer := "", confidence := 0
        effectiveness := "", dosage := "", notes := ""
        top_recommendations := [] }

/-! ## Fertilizer route — `fertilizer_routes.py`, `fertilizer_recommend`
(POST branch, lines 204–260): the recommendation-producing logic. -/

/-- Conversion of one ML entry to the template format (lines 242–251):
priority re-derived from confidence by the 60/30 thresholds,
`probability = confidence / 100`. -/
def convertMLRec (rec : MLFertRec) : FertRec :=
  { name := rec.fertilizer
    dosage := rec.dosage
    usage := rec.use
    note := rec.notes
    confidence_percentage := rec.confidence
    priority := if 60 ≤ rec.confidence then "High"
                else if 30 ≤ rec.confidence then "Medium" else "Low"
    probability := rec.confidence / 100 }

/-- The recommendations computed by the POST branch of `fertilizer_recommend`:
use the ML predictor when it was loaded; keep its converted output when it
succeeds; whenever the list is still empty (predictor missing, prediction
failed, or empty ML ranking) fall back to the rule-based scorer with
`moisture * 100` passed for both humidity and soil moisture. -/
def fertilizer_recommend (details : String → FertDetail)
    (mlAvailable : Bool) (scoring : FertScoring) (crop : String)
    (nitrogen phosphorous potassium temperature moisture : ℚ) : List FertRec :=
  let recommendations :=
    if mlAvailable then
      let result := FertilizerPredictor.predict details scoring
      if result.success then result.top_recommendations.map convertMLRec else []
    else []
  if recommendations.isEmpty then
    generate_fertilizer_recommendations crop nitrogen phosphorous potassium
      temperature (moisture * 100) (moisture * 100)
  else recommendations

/-! ## Lemmas about the stable sort -/

theorem mem_insertOrd {p : α → α → Bool} {x a : α} :
    ∀ {l : List α}, a ∈ insertOrd p x l ↔ a = x ∨ a ∈ l
  | [] => by simp [insertOrd]
  | y :: t => by
    cases h : p x y <;>
      simp [insertOrd, h, mem_insertOrd (l := t)] <;> tauto

theorem insertOrd_perm (p : α → α → Bool) (x : α) :
    ∀ l : List α, List.Perm (insertOrd p x l) (x :: l)
  | [] => by simp [insertOrd]
  | y :: t => by
    cases h : p x y
    · have h1 : List.Perm (y :: insertOrd p x t) (y :: x :: t) :=
        (insertOrd_perm p x t).cons y
      have h2 : List.Perm (y :: x :: t) (x :: y :: t) := List.Perm.swap x y t
      simpa [insertOrd, h] using h1.trans h2
    · simp [insertOrd, h]

theorem pySortOrd_perm (p : α → α → Bool) (l : List α) :
    List.Perm (pySortOrd p l) l := by
  suffices h : ∀ (l acc : List α),
      List.Perm (l.foldl (fun acc x => insertOrd p x acc) acc) (acc ++ l) by
    simpa [pySortOrd] using h l []
  intro l
  induction l with
  | nil => simp
  | cons x t ih =>
    intro acc
    rw [List.foldl_cons]
    have h1 := ih (insertOrd p x acc)
    have h2 : List.Perm (insertOrd p x acc ++ t) ((x :: acc) ++ t) :=
      (insertOrd_perm p x acc).append_right t
    have h3 : List.Perm ((x :: acc) ++ t) (acc ++ x :: t) := by
      simpa using (@List.perm_middle _ x acc t).symm
    exact (h1.trans h2).trans h3

theorem length_pySortOrd (p : α → α → Bool) (l : List α) :
    (pySortOrd p l).length = l.length :=
  (pySortOrd_perm p l).length_eq

theorem mem_pySortOrd {p : α → α → Bool} {l : List α} {a : α} :
    a ∈ pySortOrd p l ↔ a ∈ l :=
  (pySortOrd_perm p l).mem_iff

/-- The ordering invariant maintained by `insertOrd`: each element may precede
every later one (`p b a = false` reads "b does not jump over a"). -/
def OrdOk (p : α → α → Bool) (l : List α) : Prop :=
  l.Pairwise (fun a b => p b a = false)

theorem ordOk_insertOrd {p : α → α → Bool}
    (hasym : ∀ x y, p x y = true → p y x = false)
    (htrans : ∀ x y z, p x y = true → p z y = false → p z x = false)
    (x : α) : ∀ {l : List α}, OrdOk p l → OrdOk p (insertOrd p x l)
  | [], _ => by simp [OrdOk, insertOrd]
  | y :: t, hl => by
    rcases List.pairwise_cons.mp hl with ⟨hy, ht⟩
    cases h : p x y
    · have hrec := ordOk_insertOrd hasym htrans x ht
      have hcons : OrdOk p (y :: insertOrd p x t) := by
        refine List.pairwise_cons.mpr ⟨?_, hrec⟩
        intro z hz
        rcases mem_insertOrd.mp hz with rfl | hz
        · exact h
        · exact hy z hz
      simpa [insertOrd, h] using hcons
    · have hcons : OrdOk p (x :: y :: t) := by
        refine List.pairwise_cons.mpr ⟨?_, hl⟩
        intro z hz
        rcases List.mem_cons.mp hz with rfl | hz
        · exact hasym x z h
        · exact htrans x y z h (hy z hz)
      simpa [insertOrd, h] using hcons

theorem ordOk_pySortOrd {p : α → α → Bool}
    (hasym : ∀ x y, p x y = true → p y x = false)
    (htrans : ∀ x y z, p x y = true → p z y = false → p z x = false)
    (l : List α) : OrdOk p (pySortOrd p l) := by
  suffices h : ∀ (l acc : List α), OrdOk p acc →
      OrdOk p (l.foldl (fun acc x => insertOrd p x acc) acc) by
    exact h l [] List.Pairwise.nil
  intro l
  induction l with
  | nil => intro acc h; exact h
  | cons x t ih => intro acc h; exact ih _ (ordOk_insertOrd hasym htrans x h)

/-- Descending sortedness by a rational key. -/
def SortedDescBy (key : α → ℚ) (l : List α) : Prop :=
  l.Pairwise (fun a b => key b ≤ key a)

/-- Ascending sortedness by a rational key. -/
def SortedAscBy (key : α → ℚ) (l : List α) : Prop :=
  l.Pairwise (fun a b => key a ≤ key b)

theorem ordOk_iff_sortedDescBy {key : α → ℚ} {l : List α} :
    OrdOk (fun x y => decide (key y < key x)) l ↔ SortedDescBy key l := by
  unfold OrdOk SortedDescBy
  constructor <;> refine fun h => h.imp ?_ <;> intro a b hab <;>
    simpa [not_lt] using hab

theorem ordOk_iff_sortedAscBy {key : α → ℚ} {l : List α} :
    OrdOk (fun x y => decide (key x < key y)) l ↔ SortedAscBy key l := by
  unfold OrdOk SortedAscBy
  constructor <;> refine fun h => h.imp ?_ <;> intro a b hab <;>
    simpa [not_lt] using hab

theorem sortedDescBy_pySortDesc (key : α → ℚ) (l : List α) :
    SortedDescBy key (pySortDesc key l) := by
  refine ordOk_iff_sortedDescBy.mp (ordOk_pySortOrd ?_ ?_ l)
  · intro x y hxy
    simp only [decide_eq_true_eq] at hxy
    simpa [not_lt] using hxy.le
  · intro x y z hxy hzy
    simp only [decide_eq_true_eq] at hxy
    simp only [decide_eq_false_iff_not, not_lt] at hzy ⊢
    exact hzy.trans hxy.le

theorem sortedAscBy_pySortAsc (key : α → ℚ) (l : List α) :
    SortedAscBy key (pySortAsc key l) := by
  refine ordOk_iff_sortedAscBy.mp (ordOk_pySortOrd ?_ ?_ l)
  · intro x y hxy
    simp only [decide_eq_true_eq] at hxy
    simpa [not_lt] using hxy.le
  · intro x y z hxy hzy
    simp only [decide_eq_true_eq] at hxy
    simp only [decide_eq_false_iff_not, not_lt] at hzy ⊢
    exact hxy.le.trans hzy

theorem sortedDescBy_insertOrd {key : α → ℚ} (x : α) {l : List α}
    (h : SortedDescBy key l) :
    SortedDescBy key (insertOrd (fun x y => decide (key y < key x)) x l) := by
  refine ordOk_iff_sortedDescBy.mp
    (ordOk_insertOrd ?_ ?_ x (ordOk_iff_sortedDescBy.mpr h))
  · intro x y hxy
    simp only [decide_eq_true_eq] at hxy
    simpa [not_lt] using hxy.le
  · intro x y z hxy hzy
    simp only [decide_eq_true_eq] at hxy
    simp only [decide_eq_false_iff_not, not_lt] at hzy ⊢
    exact hzy.trans hxy.le

/-! ### Stability: for every key value, the sublist of entries carrying that
value is preserved by the sort — this is exactly "ties keep input order". -/

theorem filter_insertOrd_desc {key : α → ℚ} {c : ℚ} (x : α) :
    ∀ {l : List α}, SortedDescBy key l →
      (insertOrd (fun x y => decide (key y < key x)) x l).filter
          (fun a => decide (key a = c)) =
        if key x = c then l.filter (fun a => decide (key a = c)) ++ [x]
        else l.filter (fun a => decide (key a = c))
  | [], _ => by
    by_cases hxc : key x = c <;> simp [insertOrd, hxc]
  | y :: t, hl => by
    rcases List.pairwise_cons.mp hl with ⟨hy, ht⟩
    by_cases h : key y < key x
    · have hins : insertOrd (fun x y => decide (key y < key x)) x (y :: t)
          = x :: y :: t := by
        simp [insertOrd, h]
      rw [hins]
      by_cases hxc : key x = c
      · have hnil : (y :: t).filter (fun a => decide (key a = c)) = [] := by
          rw [List.filter_eq_nil_iff]
          intro a ha
          simp only [decide_eq_true_eq]
          intro hac
          have hle : key a ≤ key y := by
            rcases List.mem_cons.mp ha with rfl | ha
            · exact le_refl _
            · exact hy a ha
          have hlt : key a < key x := lt_of_le_of_lt hle h
          rw [hac, hxc] at hlt
          exact lt_irrefl c hlt
        rw [if_pos hxc, hnil]
        simp [List.filter_cons, hxc, hnil]
      · rw [if_neg hxc]
        simp [List.filter_cons, hxc]
    · have hins : insertOrd (fun x y => decide (key y < key x)) x (y :: t)
          = y :: insertOrd (fun x y => decide (key y < key x)) x t := by
        simp [insertOrd, h]
      rw [hins]
      have hrec := @filter_insertOrd_desc _ key c x t ht
      by_cases hxc : key x = c <;> by_cases hyc : key y = c <;>
        simp [List.filter_cons, hxc, hyc, hrec]

theorem filter_pySortDesc (key : α → ℚ) (c : ℚ) (l : List α) :
    (pySortDesc key l).filter (fun a => decide (key a = c)) =
      l.filter (fun a => decide (key a = c)) := by
  suffices h : ∀ (l acc : List α), SortedDescBy key acc →
      (l.foldl (fun acc x => insertOrd (fun x y => decide (key y < key x)) x acc)
          acc).filter (fun a => decide (key a = c)) =
        acc.filter (fun a => decide (key a = c)) ++
          l.filter (fun a => decide (key a = c)) by
    simpa [pySortDesc, pySortOrd] using h l [] List.Pairwise.nil
  intro l
  induction l with
  | nil => intro acc _; simp
  | cons x t ih =>
    intro acc hacc
    rw [List.foldl_cons, ih _ (sortedDescBy_insertOrd x hacc),
      filter_insertOrd_desc x hacc]
    by_cases hxc : key x = c <;> simp [List.filter_cons, hxc]

/-! ## Lemmas about the rounding model -/

theorem le_rhe_of_le {x : ℚ} {n : ℤ} (h : (n : ℚ) ≤ x) : n ≤ rhe x := by
  have hf : n ≤ Int.floor x := Int.le_floor.mpr h
  unfold rhe
  split
  · exact hf
  · split
    · omega
    · split <;> omega

theorem rhe_le_of_le {x : ℚ} {n : ℤ} (h : x ≤ (n : ℚ)) : rhe x ≤ n := by
  rcases eq_or_lt_of_le h with heq | hlt
  · subst heq
    unfold rhe
    have hfl : Int.floor (n : ℚ) = n := Int.floor_intCast n
    rw [hfl]
    have hz : (n : ℚ) - (n : ℤ) = 0 := by push_cast; ring
    rw [hz]
    norm_num
  · have hf : Int.floor x < n := by
      have := Int.floor_le_floor (le_of_lt hlt)
      rcases lt_or_eq_of_le (Int.floor_le_floor (le_of_lt hlt)) with h2 | h2
      · simpa [Int.floor_intCast] using h2
      · exfalso
        rw [Int.floor_intCast] at h2
        have hle : (n : ℚ) ≤ x := by
          calc (n : ℚ) = ((Int.floor x : ℤ) : ℚ) := by exact_mod_cast h2.symm
            _ ≤ x := Int.floor_le x
        exact absurd hlt (not_lt.mpr hle)
    unfold rhe
    split
    · omega
    · split
      · omega
      · split <;> omega

theorem round1_nonneg {x : ℚ} (h : 0 ≤ x) : 0 ≤ round1 x := by
  unfold round1
  have h10 : (0 : ℚ) ≤ x * 10 := by positivity
  have := le_rhe_of_le (x := x * 10) (n := 0) (by exact_mod_cast h10)
  have h2 : (0 : ℚ) ≤ (rhe (x * 10) : ℚ) := by exact_mod_cast this
  positivity

theorem round1_le_of_le {x : ℚ} {n : ℤ} (h : x ≤ n) : round1 x ≤ n := by
  unfold round1
  have h10 : x * 10 ≤ ((n * 10 : ℤ) : ℚ) := by push_cast; linarith
  have := rhe_le_of_le h10
  have h2 : (rhe (x * 10) : ℚ) ≤ ((n * 10 : ℤ) : ℚ) := by exact_mod_cast this
  push_cast at h2
  linarith

/-! ## Small helpers -/

theorem getQ_eq_zero_or_mem (l : List ℚ) (i : ℕ) : getQ l i = 0 ∨ getQ l i ∈ l := by
  induction l generalizing i with
  | nil => left; simp [getQ]
  | cons h t ih =>
    cases i with
    | zero => right; simp [getQ]
    | succ j =>
      rcases ih j with h0 | hm
      · left; simpa [getQ] using h0
      · right; simp [getQ] at hm ⊢
        right
        exact hm

theorem mem_enumFrom_mem {l : List α} :
    ∀ {n : ℕ} {x : ℕ × α}, x ∈ l.enumFrom n → x.2 ∈ l := by
  induction l with
  | nil => intro n x h; simp [List.enumFrom] at h
  | cons a t ih =>
    intro n x h
    rw [List.enumFrom] at h
    rcases List.mem_cons.mp h with rfl | h
    · simp
    · simp only [List.mem_cons]
      right
      exact ih h

theorem pairwise_enumFrom {l : List α} {R : α → α → Prop} (h : l.Pairwise R) :
    ∀ n : ℕ, (l.enumFrom n).Pairwise (fun a b => R a.2 b.2) := by
  induction h with
  | nil => intro n; simp [List.enumFrom]
  | cons hhead _ ih =>
    intro n
    rw [List.enumFrom]
    refine List.pairwise_cons.mpr ⟨?_, ih (n + 1)⟩
    intro z hz
    exact hhead z.2 (mem_enumFrom_mem hz)

theorem pairwise_enum {l : List α} {R : α → α → Prop} (h : l.Pairwise R) :
    l.enum.Pairwise (fun a b => R a.2 b.2) := by
  simpa [List.enum] using pairwise_enumFrom h 0

theorem map_congr_mem {f g : α → β} :
    ∀ {l : List α}, (∀ a ∈ l, f a = g a) → l.map f = l.map g
  | [], _ => rfl
  | a :: t, h => by
    rw [List.map_cons, List.map_cons, h a (List.mem_cons_self a t),
      map_congr_mem (fun b hb => h b (List.mem_cons_of_mem a hb))]

/-! ## Lemmas about the categorization layer -/

/-- All input elements assigned to category `k`, in input order. -/
def bucketOf (getCat : α → String) (k : String) (recs : List α) : List α :=
  recs.filter (fun r => decide (getCat r = k))

theorem joinVals_append :
    ∀ l₁ l₂ : List (String × List α), joinVals (l₁ ++ l₂) = joinVals l₁ ++ joinVals l₂
  | [], _ => rfl
  | kv :: t, l₂ => by
    rw [List.cons_append, joinVals, joinVals, joinVals_append t l₂, List.append_assoc]

theorem lookupKey_addToCategory_self (c : String) (r : α) :
    ∀ a : List (String × List α),
      lookupKey c (addToCategory c r a) = some ((lookupKey c a).getD [] ++ [r])
  | [] => by simp [addToCategory, lookupKey]
  | (k, l) :: t => by
    by_cases h : k = c
    · subst h
      simp [addToCategory, lookupKey]
    · simp [addToCategory, lookupKey, h, lookupKey_addToCategory_self c r t]

theorem lookupKey_addToCategory_other {k c : String} (hkc : k ≠ c) (r : α) :
    ∀ a : List (String × List α),
      lookupKey k (addToCategory c r a) = lookupKey k a
  | [] => by simp [addToCategory, lookupKey, Ne.symm hkc]
  | (q, l) :: t => by
    by_cases h : q = c
    · subst h
      simp [addToCategory, lookupKey, Ne.symm hkc]
    · simp [addToCategory, lookupKey, h, lookupKey_addToCategory_other hkc r t]

theorem lookupKey_categorize_aux (getCat : α → String) (k : String) :
    ∀ (recs : List α) (a : List (String × List α)),
      (lookupKey k (recs.foldl (fun acc r => addToCategory (getCat r) r acc) a)).getD []
        = (lookupKey k a).getD [] ++ bucketOf getCat k recs
  | [], a => by simp [bucketOf]
  | r :: rs, a => by
    rw [List.foldl_cons, lookupKey_categorize_aux getCat k rs]
    by_cases h : getCat r = k
    · subst h
      rw [lookupKey_addToCategory_self]
      simp [bucketOf, List.filter_cons]
    · rw [lookupKey_addToCategory_other (fun hk => h hk.symm)]
      simp [bucketOf, List.filter_cons, h]

theorem lookupKey_categorize (getCat : α → String) (k : String) (recs : List α) :
    (lookupKey k (categorize getCat recs)).getD [] = bucketOf getCat k recs := by
  unfold categorize
  rw [lookupKey_categorize_aux]
  simp [lookupKey]

theorem joinVals_filterMap_lookup (cats : List (String × List α)) :
    ∀ pref : List String,
      joinVals (pref.filterMap (fun k => (lookupKey k cats).map (fun l => (k, l))))
        = (pref.map (fun k => (lookupKey k cats).getD [])).flatten
  | [] => rfl
  | q :: qs => by
    rcases hq : lookupKey q cats with _ | l <;>
      simp [List.filterMap_cons, hq, joinVals, joinVals_filterMap_lookup cats qs]

theorem join_buckets_cons (getCat : α → String) (r : α) (rs : List α) :
    ∀ {pref : List String}, pref.Nodup → getCat r ∈ pref →
      List.Perm ((pref.map (fun k => bucketOf getCat k (r :: rs))).flatten)
        (r :: (pref.map (fun k => bucketOf getCat k rs)).flatten)
  | [], _, hm => absurd hm (List.not_mem_nil _)
  | q :: qs, hnd, hm => by
    rcases List.pairwise_cons.mp hnd with ⟨hq, hqs⟩
    by_cases h : getCat r = q
    · have hqb : bucketOf getCat q (r :: rs) = r :: bucketOf getCat q rs := by
        simp [bucketOf, List.filter_cons, h]
      have hrest : qs.map (fun k => bucketOf getCat k (r :: rs))
          = qs.map (fun k => bucketOf getCat k rs) := by
        refine map_congr_mem ?_
        intro k hk
        have : getCat r ≠ k := by
          intro hrk
          exact hq k hk (by rw [← hrk, h])
        simp [bucketOf, List.filter_cons, this]
      simp only [List.map_cons, List.flatten_cons, hqb, hrest, List.cons_append]
      exact List.Perm.refl _
    · have hqb : bucketOf getCat q (r :: rs) = bucketOf getCat q rs := by
        simp [bucketOf, List.filter_cons, h]
      have hm2 : getCat r ∈ qs := by
        rcases List.mem_cons.mp hm with h2 | h2
        · exact absurd h2 h
        · exact h2
      have ih := join_buckets_cons getCat r rs hqs hm2
      simp only [List.map_cons, List.flatten_cons, hqb]
      refine (List.Perm.append_left (bucketOf getCat q rs) ih).trans ?_
      exact @List.perm_middle _ r (bucketOf getCat q rs)
        ((qs.map (fun k => bucketOf getCat k rs)).flatten)

theorem join_buckets_perm (getCat : α → String) {pref : List String}
    (hnd : pref.Nodup) (hall : ∀ x : α, getCat x ∈ pref) :
    ∀ recs : List α,
      List.Perm ((pref.map (fun k => bucketOf getCat k recs)).flatten) recs
  | [] => by
    have hz : pref.map (fun k => bucketOf getCat k ([] : List α))
        = pref.map (fun _ => ([] : List α)) :=
      map_congr_mem (fun k _ => by simp [bucketOf])
    simp [hz]
  | r :: rs =>
    (join_buckets_cons getCat r rs hnd (hall r)).trans
      ((join_buckets_perm getCat hnd hall rs).cons r)

theorem keys_addToCategory {c : String} {r : α} {kv : String × List α} :
    ∀ {a : List (String × List α)}, kv ∈ addToCategory c r a →
      kv.1 = c ∨ kv.1 ∈ a.map Prod.fst
  | [], h => by
    simp [addToCategory] at h
    left
    rw [h]
  | (k, l) :: t, h => by
    by_cases hk : k = c
    · subst hk
      simp only [addToCategory, if_pos rfl] at h
      rcases List.mem_cons.mp h with rfl | h2
      · left; rfl
      · right
        simp only [List.map_cons, List.mem_cons]
        right
        exact List.mem_map_of_mem Prod.fst h2
    · simp only [addToCategory, if_neg hk] at h
      rcases List.mem_cons.mp h with rfl | h2
      · right; simp
      · rcases keys_addToCategory h2 with h3 | h3
        · left; exact h3
        · right
          simp only [List.map_cons, List.mem_cons]
          right
          exact h3

theorem keys_categorize {getCat : α → String} {kv : String × List α} :
    ∀ {recs : List α} {a : List (String × List α)},
      kv ∈ recs.foldl (fun acc r => addToCategory (getCat r) r acc) a →
      kv.1 ∈ a.map Prod.fst ∨ ∃ r ∈ recs, kv.1 = getCat r
  | [], a, h => by
    left
    exact List.mem_map_of_mem Prod.fst h
  | r :: rs, a, h => by
    rw [List.foldl_cons] at h
    rcases @keys_categorize _ _ _ rs _ h with h2 | h2
    · rcases List.mem_map.mp h2 with ⟨kv2, hkv2, hfst⟩
      rcases keys_addToCategory hkv2 with h3 | h3
      · right
        exact ⟨r, List.mem_cons_self r rs, by rw [← hfst]; exact h3⟩
      · rw [← hfst]
        rcases List.mem_map.mp h3 with ⟨kv3, hkv3, hfst3⟩
        left
        rw [← hfst3]
        exact List.mem_map_of_mem Prod.fst hkv3
    · rcases h2 with ⟨r2, hr2, heq⟩
      right
      exact ⟨r2, List.mem_cons_of_mem r hr2, heq⟩

/-- The central categorization invariant: whenever every possible category name
occurs in the preferred list (true for both routes — the catch-all is listed),
the reordered category view neither drops nor duplicates a recommendation. -/
theorem joinVals_categorizedView_perm (getCat : α → String)
    {pref : List String} (hnd : pref.Nodup) (hall : ∀ x : α, getCat x ∈ pref)
    (recs : List α) :
    List.Perm (joinVals (categorizedView getCat pref recs)) recs := by
  unfold categorizedView reorderCats
  rw [joinVals_append]
  have hpart2 : (categorize getCat recs).filter
      (fun kv => !pref.contains kv.1) = [] := by
    rw [List.filter_eq_nil_iff]
    intro kv hkv
    rcases keys_categorize (a := []) hkv with h2 | h2
    · simp at h2
    · rcases h2 with ⟨r, _, heq⟩
      have hmem : kv.1 ∈ pref := by rw [heq]; exact hall r
      simp [List.contains]
      exact hmem
  rw [hpart2, joinVals_filterMap_lookup]
  have hbuckets : (pref.map (fun k => (lookupKey k (categorize getCat recs)).getD []))
      = pref.map (fun k => bucketOf getCat k recs) :=
    map_congr_mem (fun k _ => lookupKey_categorize getCat k recs)
  rw [hbuckets]
  simpa [joinVals] using join_buckets_perm getCat hnd hall recs

/-! ## Supporting definitions for the claims -/

/-- A trivial detail lookup (used to instantiate the abstract knowledge base). -/
def dfltDetails : String → FertDetail :=
  fun _ => { effectiveness := "Medium", dosage := "20-40 kg/acre",
             use_case := "General use", remark := "" }

/-- The example scenario of the specification (testable property 7). -/
def exampleInputs : CropInputs :=
  ⟨100, 45, 40, 25, 85, 31/5, 200⟩

/-- The rule-based fertilizer score exactly as claim C3 states it: unconditional
per-nutrient credit `min(cap, deficit-ratio x content)`, the balanced-NPK bonus,
environmental bonuses and crop-affinity bonuses.  The source guards each
nutrient term by `deficit > 0 and content > 0`, which is redundant because the
term is zero in that case. -/
def claimFertScore (crop_type : String) (n p k temperature soil_moisture : ℚ)
    (f : FertCandidate) : ℚ :=
  let n_deficit := max 0 (100 - n)
  let p_deficit := max 0 (60 - p)
  let k_deficit := max 0 (50 - k)
  let dry_soil := soil_moisture < 40
  let wet_soil := 70 < soil_moisture
  let high_temp := 30 < temperature
  let low_temp := temperature < 15
  let deficits : ℕ := (if 20 < n_deficit then 1 else 0)
    + (if 15 < p_deficit then 1 else 0) + (if 15 < k_deficit then 1 else 0)
  let crop_lower := crop_type.toList.map Char.toLower
  min 30 (n_deficit / 100 * f.n_content)
  + min 25 (p_deficit / 60 * f.p_content)
  + min 15 (k_deficit / 50 * f.k_content)
  + (if 2 ≤ deficits ∧ hasSub "NPK".toList f.name.toList then 15 else 0)
  + (if dry_soil ∧ hasSub "Organic".toList f.name.toList then 10 else 0)
  + (if wet_soil ∧ ¬ hasSub "Urea".toList f.name.toList then 5 else 0)
  + (if high_temp ∧ 0 < f.k_content then 5 else 0)
  + (if low_temp ∧ hasSub "DAP".toList f.name.toList then 5 else 0)
  + (if (hasSub "rice".toList crop_lower ∨ hasSub "wheat".toList crop_lower)
        ∧ hasSub "Urea".toList f.name.toList then 8 else 0)
  + (if (hasSub "potato".toList crop_lower ∨ hasSub "tomato".toList crop_lower)
        ∧ 0 < f.k_content then 8 else 0)
  + (if (hasSub "legume".toList crop_lower ∨ hasSub "pulse".toList crop_lower)
        ∧ 0 < f.p_content then 8 else 0)

/-- One output record as the amended claim C3 describes it: score from
`claimFertScore` clamped by `min 100`, priority thresholds 70/45 applied to the
ROUNDED confidence `round(score, 1)`, probability from the unrounded score. -/
def claimMkFertRec (crop_type : String) (n p k temperature soil_moisture : ℚ)
    (f : FertCandidate) : FertRec :=
  let s := min 100 (claimFertScore crop_type n p k temperature soil_moisture f)
  { name := f.name, dosage := f.dosage, usage := f.usage, note := f.note
    probability := s / 100
    confidence_percentage := round1 s
    priority := if 70 ≤ round1 s then "High"
                else if 45 ≤ round1 s then "Medium" else "Low" }

/-! ## Helper lemmas for the claims -/

theorem get_crop_category_mem_preferred (name : String) :
    get_crop_category name ∈ cropPreferredOrder := by
  unfold get_crop_category
  rcases hfind : cropCategories.find?
      (fun kv => kv.2.any (fun e => e.toList == normName name)) with _ | kv
  · simp only [hfind]
    decide
  · simp only [hfind]
    have hkv := List.mem_of_find?_eq_some hfind
    fin_cases hkv <;> decide

theorem get_fertilizer_category_mem_preferred (name : String) :
    get_fertilizer_category name ∈ fertPreferredOrder := by
  unfold get_fertilizer_category
  rcases hfind : fertCategories.find?
      (fun kv => kv.2.any (fun e => hasSub e.toList (normName name))) with _ | kv
  · simp only [hfind]
    decide
  · simp only [hfind]
    have hkv := List.mem_of_find?_eq_some hfind
    fin_cases hkv <;> decide

theorem nutrient_term_nonneg {cap d t c : ℚ} (hcap : 0 ≤ cap) (hd : 0 ≤ d)
    (ht : 0 ≤ t) : 0 ≤ (if 0 < d ∧ 0 < c then min cap (d / t * c) else 0) := by
  split
  · rename_i h
    exact le_min hcap (mul_nonneg (div_nonneg hd ht) h.2.le)
  · exact le_rfl

theorem bonus_term_nonneg {c : Prop} [Decidable c] {a : ℚ} (ha : 0 ≤ a) :
    0 ≤ (if c then a else 0) := by
  split
  · exact ha
  · exact le_rfl

theorem fertScore_nonneg (crop_type : String) (n p k temperature soil_moisture : ℚ)
    (f : FertCandidate) :
    0 ≤ fertScore crop_type n p k temperature soil_moisture f := by
  simp only [fertScore]
  repeat' apply add_nonneg
  · exact nutrient_term_nonneg (by norm_num) (le_max_left 0 _) (by norm_num)
  · exact nutrient_term_nonneg (by norm_num) (le_max_left 0 _) (by norm_num)
  · exact nutrient_term_nonneg (by norm_num) (le_max_left 0 _) (by norm_num)
  · exact bonus_term_nonneg (by norm_num)
  · exact bonus_term_nonneg (by norm_num)
  · exact bonus_term_nonneg (by norm_num)
  · exact bonus_term_nonneg (by norm_num)
  · exact bonus_term_nonneg (by norm_num)
  · exact bonus_term_nonneg (by norm_num)
  · exact bonus_term_nonneg (by norm_num)
  · exact bonus_term_nonneg (by norm_num)

theorem filter_take_exists_take (p : α → Bool) :
    ∀ (n : ℕ) (l : List α), ∃ m, (l.take n).filter p = (l.filter p).take m := by
  intro n l
  induction l generalizing n with
  | nil => exact ⟨0, by simp⟩
  | cons x t ih =>
    cases n with
    | zero => exact ⟨0, by simp⟩
    | succ j =>
      rcases ih j with ⟨m, hm⟩
      by_cases hx : p x
      · exact ⟨m + 1, by simp [List.filter_cons, hx, hm]⟩
      · exact ⟨m, by simp [List.filter_cons, hx, hm]⟩

/-! ## The claims -/

/-- C2: whenever the scoring step of `predict_crop_recommendation` raises any
exception (unavailable or failing model artifacts, or the missing
`crop_model_simple` fallback module), the function does not propagate the error
but returns the well-formed, non-empty hardcoded result: Rice (0.85, High),
Wheat (0.70, Medium), Maize (0.60, Medium), recommended crop Rice, with the
seven input parameters echoed back unchanged.  The embedding is a total
function, reflecting that the source catches every exception. -/
theorem crop_predictor_degrades_gracefully (i : CropInputs) :
    predict_crop_recommendation i CropScoring.exn =
      { recommended_crop := "Rice"
        top_recommendations :=
          [{ name := "Rice", probability := 85/100, confidence_percentage := 85,
             priority := "High" },
           { name := "Wheat", probability := 70/100, confidence_percentage := 70,
             priority := "Medium" },
           { name := "Maize", probability := 60/100, confidence_percentage := 60,
             priority := "Medium" }]
        input_parameters := i }
    ∧ (predict_crop_recommendation i CropScoring.exn).top_recommendations ≠ []
    ∧ (predict_crop_recommendation i CropScoring.exn).input_parameters = i :=
  ⟨rfl, by simp [predict_crop_recommendation, fallbackCropResult], rfl⟩

/-- C6: when the statistical fertilizer prediction raises (for example on an
unseen soil or crop category), `FertilizerPredictor.predict` returns
`{success: false, error: msg}` instead of raising, and the route
`fertilizer_recommend` then computes the recommendations for that request with
the rule-based scorer `generate_fertilizer_recommendations` (moisture rescaled
by 100), not with any hardcoded list. -/
theorem fert_predictor_error_triggers_rule_fallback
    (details : String → FertDetail) (msg crop : String)
    (nitrogen phosphorous potassium temperature moisture : ℚ) :
    (FertilizerPredictor.predict details (FertScoring.exn msg)).success = false
    ∧ (FertilizerPredictor.predict details (FertScoring.exn msg)).error = msg
    ∧ fertilizer_recommend details true (FertScoring.exn msg) crop
        nitrogen phosphorous potassium temperature moisture
      = generate_fertilizer_recommendations crop nitrogen phosphorous potassium
          temperature (moisture * 100) (moisture * 100) := by
  refine ⟨rfl, rfl, ?_⟩
  simp [fertilizer_recommend, FertilizerPredictor.predict]

/-- C7: on the example inputs N=100, P=45, K=40, temperature=25, humidity=85,
pH=6.2, rainfall=200, Rice satisfies all 7 of its range conditions (raw score
1.0, the maximum), its confidence is clamped to 95, and Rice is ranked first
among the fixed 6-crop catalog. -/
theorem crop_rule_example_rice_first :
    inR riceRanges.nLo riceRanges.nHi exampleInputs.nitrogen = true
    ∧ inR riceRanges.pLo riceRanges.pHi exampleInputs.phosphorous = true
    ∧ inR riceRanges.kLo riceRanges.kHi exampleInputs.potassium = true
    ∧ inR riceRanges.tLo riceRanges.tHi exampleInputs.temperature = true
    ∧ inR riceRanges.hLo riceRanges.hHi exampleInputs.humidity = true
    ∧ inR riceRanges.phLo riceRanges.phHi exampleInputs.ph = true
    ∧ inR riceRanges.rLo riceRanges.rHi exampleInputs.rainfall = true
    ∧ cropRangeScore riceRanges exampleInputs = 1
    ∧ (generate_fallback_recommendations exampleInputs).head? =
        some { name := "Rice", probability := 95/100,
               confidence_percentage := 95, priority := "High" } := by
  norm_num [exampleInputs, riceRanges, inR, cropRangeScore,
    generate_fallback_recommendations, cropsScores, fallbackCrops,
    wheatRanges, maizeRanges, cottonRanges, juteRanges, bananaRanges,
    pySortDesc, pySortOrd, insertOrd, mkFallbackRec]

/-- C9: `top_recommendations` never exceeds 6 entries in any mode: the
statistical crop path truncates to 6, the exception fallback has 3, the
statistical fertilizer path selects at most 6 label indices, the rule-based
fertilizer scorer keeps the first 6 of its 7 candidates, and the rule-based
crop scorer emits exactly its 6 catalog crops. -/
theorem top_recommendations_bounded :
    (∀ (i : CropInputs) (s : CropScoring),
      (predict_crop_recommendation i s).top_recommendations.length ≤ 6)
    ∧ (∀ (details : String → FertDetail) (predicted : String)
        (labels : List String) (probs : List ℚ),
      (FertilizerPredictor.predict details
        (FertScoring.ok predicted labels probs)).top_recommendations.length ≤ 6)
    ∧ (∀ (crop : String) (n p k temperature humidity soil_moisture : ℚ),
      (generate_fertilizer_recommendations crop n p k temperature humidity
        soil_moisture).length ≤ 6)
    ∧ (∀ i : CropInputs, (generate_fallback_recommendations i).length = 6) := by
  refine ⟨?_, ?_, ?_, ?_⟩
  · intro i s
    cases s with
    | sklearnOk predicted classes =>
      simpa [predict_crop_recommendation] using
        List.length_take_le 6 (pySortDesc (fun r => r.probability)
          ((classes.map statCropRec)))
    | exn => simp [predict_crop_recommendation, fallbackCropResult]
  · intro details predicted labels probs
    simp only [FertilizerPredictor.predict, List.length_map, List.enum_length,
      List.length_reverse, takeLast, List.length_drop]
    omega
  · intro crop n p k temperature humidity soil_moisture
    simpa [generate_fertilizer_recommendations] using
      List.length_take_le 6 (pySortDesc (fun r : FertRec => r.confidence_percentage)
        (fertCandidates.map (mkFertRec crop n p k temperature soil_moisture)))
  · intro i
    simp [generate_fallback_recommendations, pySortDesc, length_pySortOrd,
      cropsScores, fallbackCrops]

/-- C10: when the statistical fertilizer prediction succeeds (and produces a
non-empty ranking), the route keeps the converted ML entries, and the
conversion re-derives priority from confidence with the 60/30 thresholds
(different from both the 70/45 rule-based scale and the 0.7/0.4 crop scale) and
sets probability to confidence/100. -/
theorem fert_route_rederives_priority (details : String → FertDetail)
    (predicted : String) (labels : List String) (probs : List ℚ)
    (crop : String) (nitrogen phosphorous potassium temperature moisture : ℚ)
    (h : (FertilizerPredictor.predict details
        (FertScoring.ok predicted labels probs)).top_recommendations ≠ []) :
    fertilizer_recommend details true (FertScoring.ok predicted labels probs)
        crop nitrogen phosphorous potassium temperature moisture
      = (FertilizerPredictor.predict details
          (FertScoring.ok predicted labels probs)).top_recommendations.map convertMLRec
    ∧ ∀ m : MLFertRec,
        (convertMLRec m).priority
          = (if 60 ≤ m.confidence then "High"
             else if 30 ≤ m.confidence then "Medium" else "Low")
        ∧ (convertMLRec m).probability = m.confidence / 100
        ∧ (convertMLRec m).confidence_percentage = m.confidence := by
  constructor
  · have hne : ((FertilizerPredictor.predict details
        (FertScoring.ok predicted labels probs)).top_recommendations.map
          convertMLRec) ≠ [] := by
      simpa using h
    have hsucc : (FertilizerPredictor.predict details
        (FertScoring.ok predicted labels probs)).success = true := rfl
    simp only [fertilizer_recommend, hsucc, if_true, List.isEmpty_eq_true, hne,
      if_false]
  · intro m
    exact ⟨rfl, rfl, rfl⟩

/-- C5: every produced recommendation has `confidence_percentage` in [0,100]
and `probability` in [0,1], in every mode (rule-based crop, rule-based
fertilizer, statistical crop incl. its exception fallback, the route's ML
conversion, statistical fertilizer — the statistical paths under the model
contract that class probabilities lie in [0,1]); moreover the rule-based crop
scorer clamps `confidence_percentage` into [30,95] and sets
`probability = confidence_percentage / 100`. -/
theorem confidence_probability_domains :
    (∀ i : CropInputs, ∀ r ∈ generate_fallback_recommendations i,
      30 ≤ r.confidence_percentage ∧ r.confidence_percentage ≤ 95
        ∧ r.probability = r.confidence_percentage / 100
        ∧ 0 ≤ r.probability ∧ r.probability ≤ 1)
    ∧ (∀ (crop : String) (n p k temperature humidity soil_moisture : ℚ),
        ∀ r ∈ generate_fertilizer_recommendations crop n p k temperature
            humidity soil_moisture,
          (0 ≤ r.confidence_percentage ∧ r.confidence_percentage ≤ 100)
          ∧ 0 ≤ r.probability ∧ r.probability ≤ 1)
    ∧ (∀ (i : CropInputs) (predicted : String) (classes : List (String × ℚ)),
        (∀ cp ∈ classes, 0 ≤ cp.2 ∧ cp.2 ≤ 1) →
        ∀ r ∈ (predict_crop_recommendation i
            (CropScoring.sklearnOk predicted classes)).top_recommendations,
          (0 ≤ r.probability ∧ r.probability ≤ 1)
          ∧ 0 ≤ r.confidence_percentage ∧ r.confidence_percentage ≤ 100)
    ∧ (∀ i : CropInputs,
        ∀ r ∈ (predict_crop_recommendation i CropScoring.exn).top_recommendations,
          (0 ≤ r.probability ∧ r.probability ≤ 1)
          ∧ 0 ≤ r.confidence_percentage ∧ r.confidence_percentage ≤ 100)
    ∧ (∀ m : MLFertRec, 0 ≤ m.confidence → m.confidence ≤ 100 →
        (0 ≤ (convertMLRec m).probability ∧ (convertMLRec m).probability ≤ 1)
        ∧ 0 ≤ (convertMLRec m).confidence_percentage
        ∧ (convertMLRec m).confidence_percentage ≤ 100)
    ∧ (∀ (details : String → FertDetail) (predicted : String)
        (labels : List String) (probs : List ℚ),
        (∀ q ∈ probs, 0 ≤ q ∧ q ≤ 1) →
        ∀ m ∈ (FertilizerPredictor.predict details
            (FertScoring.ok predicted labels probs)).top_recommendations,
          0 ≤ m.confidence ∧ m.confidence ≤ 100) := by
  refine ⟨?_, ?_, ?_, ?_, ?_, ?_⟩
  · intro i r hr
    rcases List.mem_map.mp hr with ⟨cs, _, rfl⟩
    simp only [mkFallbackRec]
    have h30 : (30:ℚ) ≤ min (max (cs.2 * 100) 30) 95 :=
      le_min (le_max_right _ _) (by norm_num)
    have h95 : min (max (cs.2 * 100) 30) 95 ≤ 95 := min_le_right _ _
    exact ⟨h30, h95, by trivial, by linarith, by linarith⟩
  · intro crop n p k temperature humidity soil_moisture r hr
    have hr1 : r ∈ (pySortDesc (fun r : FertRec => r.confidence_percentage)
        (fertCandidates.map (mkFertRec crop n p k temperature soil_moisture))).take 6 := by
      simpa [generate_fertilizer_recommendations] using hr
    have hr2 := List.take_subset 6 _ hr1
    rcases List.mem_map.mp (mem_pySortOrd.mp hr2) with ⟨f, _, rfl⟩
    simp only [mkFertRec]
    have hs0 : 0 ≤ min 100 (fertScore crop n p k temperature soil_moisture f) :=
      le_min (by norm_num) (fertScore_nonneg _ _ _ _ _ _ _)
    have hs100 : min 100 (fertScore crop n p k temperature soil_moisture f) ≤ 100 :=
      min_le_left _ _
    have hr0 := round1_nonneg hs0
    have hr100 : round1 (min 100 (fertScore crop n p k temperature soil_moisture f))
        ≤ 100 := by
      have h := round1_le_of_le (n := 100) (by exact_mod_cast hs100)
      exact_mod_cast h
    exact ⟨⟨hr0, hr100⟩, by linarith, by linarith⟩
  · intro i predicted classes hcl r hr
    have hr1 : r ∈ (pySortDesc (fun r : CropRec => r.probability)
        (classes.map statCropRec)).take 6 := by
      simpa [predict_crop_recommendation] using hr
    rcases List.mem_map.mp (mem_pySortOrd.mp (List.take_subset 6 _ hr1))
      with ⟨cp, hcp, rfl⟩
    rcases hcl cp hcp with ⟨h0, h1⟩
    simp only [statCropRec]
    exact ⟨⟨h0, h1⟩, by linarith, by linarith⟩
  · intro i r hr
    simp only [predict_crop_recommendation, fallbackCropResult,
      List.mem_cons, List.not_mem_nil, or_false] at hr
    rcases hr with rfl | rfl | rfl <;> norm_num
  · intro m h0 h100
    simp only [convertMLRec]
    exact ⟨⟨by linarith, by linarith⟩, h0, h100⟩
  · intro details predicted labels probs hpr m hm
    simp only [FertilizerPredictor.predict] at hm
    rcases List.mem_map.mp hm with ⟨ir, _, rfl⟩
    simp only
    rcases getQ_eq_zero_or_mem probs ir.2 with h0 | hmem
    · rw [h0]
      norm_num
    · rcases hpr _ hmem with ⟨h0, h1⟩
      constructor <;> nlinarith

theorem get_crop_category_no_match {name : String}
    (h : ∀ kv ∈ cropCategories, ∀ e ∈ kv.2, e.toList ≠ normName name) :
    get_crop_category name = "Other Crops" := by
  unfold get_crop_category
  have hnone : cropCategories.find?
      (fun kv => kv.2.any (fun e => e.toList == normName name)) = none := by
    rw [List.find?_eq_none]
    intro kv hkv
    rw [Bool.not_eq_true, List.any_eq_false]
    intro e he
    rw [Bool.not_eq_true, beq_eq_false_iff_ne]
    exact h kv hkv e he
  rw [hnone]

theorem get_fertilizer_category_no_match {name : String}
    (h : ∀ kv ∈ fertCategories, ∀ e ∈ kv.2, hasSub e.toList (normName name) = false) :
    get_fertilizer_category name = "Other Fertilizers" := by
  unfold get_fertilizer_category
  have hnone : fertCategories.find?
      (fun kv => kv.2.any (fun e => hasSub e.toList (normName name))) = none := by
    rw [List.find?_eq_none]
    intro kv hkv
    rw [Bool.not_eq_true, List.any_eq_false]
    intro e he
    rw [Bool.not_eq_true]
    exact h kv hkv e he
  rw [hnone]

/-- C1: for every input sequence of recommendations, the categorization layer
of both routes places each recommendation in exactly one output category: the
concatenation of the emitted category buckets is a permutation of the input
sequence (equal as multisets — nothing dropped, nothing duplicated), and a
name matching no table entry lands in the "Other Crops" / "Other Fertilizers"
catch-all. -/
theorem categorization_total_coverage :
    (∀ recs : List CropRec,
      List.Perm (joinVals (categorizedView (fun r => get_crop_category r.name)
        cropPreferredOrder recs)) recs)
    ∧ (∀ recs : List FertRec,
      List.Perm (joinVals (categorizedView (fun r => get_fertilizer_category r.name)
        fertPreferredOrder recs)) recs)
    ∧ (∀ name : String,
        (∀ kv ∈ cropCategories, ∀ e ∈ kv.2, e.toList ≠ normName name) →
        get_crop_category name = "Other Crops")
    ∧ (∀ name : String,
        (∀ kv ∈ fertCategories, ∀ e ∈ kv.2,
          hasSub e.toList (normName name) = false) →
        get_fertilizer_category name = "Other Fertilizers") := by
  have hnd1 : cropPreferredOrder.Nodup := by simp [cropPreferredOrder]
  have hnd2 : fertPreferredOrder.Nodup := by simp [fertPreferredOrder]
  refine ⟨?_, ?_, ?_, ?_⟩
  · intro recs
    exact joinVals_categorizedView_perm
      (fun r : CropRec => get_crop_category r.name) hnd1
      (fun r => get_crop_category_mem_preferred r.name) recs
  · intro recs
    exact joinVals_categorizedView_perm
      (fun r : FertRec => get_fertilizer_category r.name) hnd2
      (fun r => get_fertilizer_category_mem_preferred r.name) recs
  · intro name h
    exact get_crop_category_no_match h
  · intro name h
    exact get_fertilizer_category_no_match h

/-- Witness for C1: a one-element run through the crop categorization, and the
catch-all behaviour at names matching no table entry. -/
theorem categorization_total_coverage_witness :
    List.Perm (joinVals (categorizedView (fun r : CropRec => get_crop_category r.name)
      cropPreferredOrder [CropRec.mk "Rice" (1/2) 50 "Medium"]))
      [CropRec.mk "Rice" (1/2) 50 "Medium"]
    ∧ get_crop_category "dragonfruit" = "Other Crops"
    ∧ get_fertilizer_category "zeolite" = "Other Fertilizers" :=
  ⟨categorization_total_coverage.1 _,
   categorization_total_coverage.2.2.1 "dragonfruit" (by decide),
   categorization_total_coverage.2.2.2 "zeolite" (by decide)⟩

/-- C8 (amended): the FERTILIZER lookup is case-insensitive, trim-tolerant and
substring-tolerant — a name containing a table entry after normalisation is
assigned a matching category (the first in table order), never the catch-all;
the CROP lookup is case-insensitive and trim-tolerant but EXACT — a crop name
is assigned entry kv's category precisely when its normal form equals a member
of kv; substring containment does not suffice for crops (counterexample). -/
theorem category_lookup_matching :
    (∀ (name : String) (kv : String × List String) (e : String),
      kv ∈ cropCategories → e ∈ kv.2 → normName name = e.toList →
      get_crop_category name = kv.1)
    ∧ (∀ name : String,
        get_crop_category name = "Other Crops" ↔
          ∀ kv ∈ cropCategories, ∀ e ∈ kv.2, e.toList ≠ normName name)
    ∧ (∀ (name : String) (kv : String × List String),
        kv ∈ fertCategories →
        (∃ e ∈ kv.2, hasSub e.toList (normName name) = true) →
        ∃ kv2 ∈ fertCategories, get_fertilizer_category name = kv2.1
          ∧ ∃ e2 ∈ kv2.2, hasSub e2.toList (normName name) = true)
    ∧ (∀ name : String,
        get_fertilizer_category name = "Other Fertilizers" ↔
          ∀ kv ∈ fertCategories, ∀ e ∈ kv.2,
            hasSub e.toList (normName name) = false) := by
  refine ⟨?_, ?_, ?_, ?_⟩
  · intro name kv e hkv he h
    have hpred : (kv.2.any (fun x => x.toList == normName name)) = true := by
      simp only [List.any_eq_true]
      exact ⟨e, he, beq_iff_eq.mpr h.symm⟩
    rcases hfind : cropCategories.find?
        (fun kv => kv.2.any (fun x => x.toList == normName name)) with _ | kv2
    · rw [List.find?_eq_none] at hfind
      exact absurd hpred (hfind kv hkv)
    · have hmem2 := List.mem_of_find?_eq_some hfind
      have hp2 := List.find?_some hfind
      simp only [List.any_eq_true] at hp2
      rcases hp2 with ⟨e2, he2, heq2⟩
      rw [beq_iff_eq] at heq2
      have hee : e2 = e := by
        apply String.ext
        have h12 : e2.toList = e.toList := by rw [heq2, h]
        simpa [String.toList] using h12
      have hdisj : ∀ kv1 ∈ cropCategories, ∀ kvb ∈ cropCategories, ∀ s : String,
          s ∈ kv1.2 → s ∈ kvb.2 → kv1 = kvb := by decide
      have hkk : kv2 = kv := hdisj kv2 hmem2 kv hkv e (hee ▸ he2) he
      unfold get_crop_category
      rw [hfind, hkk]
  · intro name
    constructor
    · intro hcat kv hkv e he heq
      rcases hfind : cropCategories.find?
          (fun kv => kv.2.any (fun e => e.toList == normName name)) with _ | kv2
      · rw [List.find?_eq_none] at hfind
        refine hfind kv hkv ?_
        simp only [List.any_eq_true]
        exact ⟨e, he, beq_iff_eq.mpr heq⟩
      · have h2 : get_crop_category name = kv2.1 := by
          unfold get_crop_category
          rw [hfind]
        rw [hcat] at h2
        have hmem := List.mem_of_find?_eq_some hfind
        have hne : ∀ kv ∈ cropCategories, kv.1 ≠ "Other Crops" := by decide
        exact absurd h2.symm (hne kv2 hmem)
    · exact get_crop_category_no_match
  · intro name kv hkv hex
    rcases hex with ⟨e, he, hsub⟩
    rcases hfind : fertCategories.find?
        (fun kv => kv.2.any (fun e => hasSub e.toList (normName name))) with _ | kv2
    · exfalso
      rw [List.find?_eq_none] at hfind
      refine hfind kv hkv ?_
      simp only [List.any_eq_true]
      exact ⟨e, he, hsub⟩
    · refine ⟨kv2, List.mem_of_find?_eq_some hfind, ?_, ?_⟩
      · unfold get_fertilizer_category
        rw [hfind]
      · have hp := List.find?_some hfind
        simpa [List.any_eq_true] using hp
  · intro name
    constructor
    · intro hcat kv hkv e he
      rcases hfind : fertCategories.find?
          (fun kv => kv.2.any (fun e => hasSub e.toList (normName name))) with _ | kv2
      · rw [List.find?_eq_none] at hfind
        have h3 := hfind kv hkv
        rw [Bool.not_eq_true, List.any_eq_false] at h3
        have h4 := h3 e he
        rw [Bool.not_eq_true] at h4
        exact h4
      · exfalso
        have h2 : get_fertilizer_category name = kv2.1 := by
          unfold get_fertilizer_category
          rw [hfind]
        rw [hcat] at h2
        have hmem := List.mem_of_find?_eq_some hfind
        have hne : ∀ kv ∈ fertCategories, kv.1 ≠ "Other Fertilizers" := by decide
        exact absurd h2.symm (hne kv2 hmem)
    · exact get_fertilizer_category_no_match

/-- Witness for C8: exact crop matching after lowercasing and trimming. -/
theorem category_lookup_matching_witness :
    get_crop_category " RICE " = "Grains & Cereals" :=
  category_lookup_matching.1 " RICE " ("Grains & Cereals", ["rice", "wheat", "maize"])
    "rice" (by decide) (by decide) (by decide)

/-- C8 counterexample: "Basmati rice" contains the table entry "rice" (listed
under Grains & Cereals) as a substring after normalisation, yet the crop
lookup assigns the catch-all — crop matching is exact, not substring-tolerant
as claimed. -/
theorem crop_category_substring_counterexample :
    get_crop_category "Basmati rice" = "Other Crops"
    ∧ hasSub "rice".toList (normName "Basmati rice") = true
    ∧ ("Grains & Cereals", ["rice", "wheat", "maize"]) ∈ cropCategories
    ∧ "rice" ∈ ["rice", "wheat", "maize"] := by
  decide

theorem nutrient_term_eq {cap d t c : ℚ} (hcap : 0 ≤ cap) (hd : 0 ≤ d)
    (hc : 0 ≤ c) :
    (if 0 < d ∧ 0 < c then min cap (d / t * c) else 0) = min cap (d / t * c) := by
  split
  · rfl
  · rename_i h
    push_neg at h
    rcases eq_or_lt_of_le hd with hd2 | hd2
    · rw [← hd2, zero_div, zero_mul, min_eq_right hcap]
    · have hc0 : c = 0 := le_antisymm (h hd2) hc
      rw [hc0, mul_zero, min_eq_right hcap]

theorem fertScore_eq_claimFertScore (crop : String)
    (n p k temperature soil_moisture : ℚ) (f : FertCandidate)
    (hn : 0 ≤ f.n_content) (hp : 0 ≤ f.p_content) (hk : 0 ≤ f.k_content) :
    fertScore crop n p k temperature soil_moisture f
      = claimFertScore crop n p k temperature soil_moisture f := by
  simp only [fertScore, claimFertScore]
  rw [nutrient_term_eq (by norm_num) (le_max_left 0 _) hn,
    nutrient_term_eq (by norm_num) (le_max_left 0 _) hp,
    nutrient_term_eq (by norm_num) (le_max_left 0 _) hk]

theorem mkFertRec_eq_claimMkFertRec (crop : String)
    (n p k temperature soil_moisture : ℚ) (f : FertCandidate)
    (hn : 0 ≤ f.n_content) (hp : 0 ≤ f.p_content) (hk : 0 ≤ f.k_content) :
    mkFertRec crop n p k temperature soil_moisture f
      = claimMkFertRec crop n p k temperature soil_moisture f := by
  simp only [mkFertRec, claimMkFertRec,
    fertScore_eq_claimFertScore crop n p k temperature soil_moisture f hn hp hk]

theorem fertCandidates_contents_nonneg :
    ∀ f ∈ fertCandidates, 0 ≤ f.n_content ∧ 0 ≤ f.p_content ∧ 0 ≤ f.k_content := by
  intro f hf
  fin_cases hf <;> norm_num

/-- C3 (amended): for each catalog fertilizer the computed score equals the
claim's formula — per-nutrient credit min(cap, deficit-ratio x content) with
deficits max(0,100-N)/max(0,60-P)/max(0,50-K) and caps 30/25/15, +15 for a
balanced NPK blend under at least two deficits over 20/15/15, the four
environmental bonuses, and the +8 crop-affinity bonuses; `min 100` is a true
clamp to [0,100] since the score is nonnegative; and the output is the top 6
of a stable descending sort by confidence.  AMENDMENT forced by the
counterexample: the 70/45 priority thresholds are applied to the confidence
`round(score, 1)` — the score rounded to one decimal — rather than to the
clamped score itself, so a score within 0.05 below a threshold can round up
across it. -/
theorem fert_rule_scorer_formula (crop : String)
    (n p k temperature humidity soil_moisture : ℚ) :
    (∀ f ∈ fertCandidates,
      fertScore crop n p k temperature soil_moisture f
        = claimFertScore crop n p k temperature soil_moisture f
      ∧ min 100 (fertScore crop n p k temperature soil_moisture f)
        = max 0 (min 100 (claimFertScore crop n p k temperature soil_moisture f)))
    ∧ generate_fertilizer_recommendations crop n p k temperature humidity
        soil_moisture
      = (pySortDesc (fun r => r.confidence_percentage)
          (fertCandidates.map
            (claimMkFertRec crop n p k temperature soil_moisture))).take 6 := by
  constructor
  · intro f hf
    rcases fertCandidates_contents_nonneg f hf with ⟨hn2, hp2, hk2⟩
    have he := fertScore_eq_claimFertScore crop n p k temperature soil_moisture
      f hn2 hp2 hk2
    refine ⟨he, ?_⟩
    rw [he, max_eq_right]
    exact le_min (by norm_num)
      (he ▸ fertScore_nonneg crop n p k temperature soil_moisture f)
  · have hmap : fertCandidates.map (mkFertRec crop n p k temperature soil_moisture)
        = fertCandidates.map (claimMkFertRec crop n p k temperature soil_moisture) :=
      map_congr_mem (fun f hf => by
        rcases fertCandidates_contents_nonneg f hf with ⟨hn2, hp2, hk2⟩
        exact mkFertRec_eq_claimMkFertRec crop n p k temperature soil_moisture
          f hn2 hp2 hk2)
    simp only [generate_fertilizer_recommendations, hmap]

/-- The first catalog candidate, for the C3 witness. -/
def ureaCandidate : FertCandidate :=
  { name := "Urea (46-0-0)", dosage := "50-100 kg/acre",
    usage := "Apply in split doses: 50% at sowing, 25% at tillering, 25% at flowering",
    note := "Best nitrogen source for rapid vegetative growth",
    n_content := 46, p_content := 0, k_content := 0 }

/-- Witness for C3 at concrete inputs and the Urea catalog entry. -/
theorem fert_rule_scorer_formula_witness :
    fertScore "rice" 10 10 10 20 50 ureaCandidate
      = claimFertScore "rice" 10 10 10 20 50 ureaCandidate
    ∧ min 100 (fertScore "rice" 10 10 10 20 50 ureaCandidate)
      = max 0 (min 100 (claimFertScore "rice" 10 10 10 20 50 ureaCandidate)) :=
  (fert_rule_scorer_formula "rice" 10 10 10 20 50 50).1 ureaCandidate
    (List.mem_cons_self _ _)

/-- C3 counterexample: at crop='legume', N=-49.75, P=20, K=50, temperature=10,
humidity=80, soil moisture=80 the DAP candidate's clamped score is
69.955 < 70, but its stored priority is "High" because the code thresholds the
rounded confidence round(69.955, 1) = 70.0; the claim as stated
("High iff score ≥ 70, Medium iff 45 ≤ score < 70") predicts "Medium". -/
theorem fert_rule_priority_rounding_counterexample :
    ((generate_fertilizer_recommendations "legume" (-199/4) 20 50 10 80 80).map
      (fun r => (r.name, r.probability, r.confidence_percentage, r.priority)))[1]?
      = some ("DAP (18-46-0)", 13991/20000, 70, "High")
    ∧ (13991/20000 : ℚ) * 100 < 70 := by
  constructor
  · norm_num +decide [generate_fertilizer_recommendations, mkFertRec, fertScore,
      fertCandidates, pySortDesc, pySortOrd, insertOrd, round1, rhe]
  · norm_num

/-- C4 (amended): in all four modes `top_recommendations` is sorted
non-increasing by probability/confidence.  Ties keep candidate generation
order in the three modes backed by Python's stable `list.sort` (statistical
crop, rule-based crop, rule-based fertilizer) — stated as: for every key value,
the output's sublist of entries with that key is a prefix of (for the unsorted
full lists: equal to) the generated candidates' sublist.  The claim's stability
assertion FAILS for the statistical fertilizer mode, whose
`np.argsort(...)[-6:][::-1]` emits equal-probability entries in reverse
generation order; only sortedness holds there (see the counterexample). -/
theorem ranking_sorted_with_stable_ties :
    (∀ (i : CropInputs) (predicted : String) (classes : List (String × ℚ)),
      SortedDescBy (fun r => r.probability)
        ((predict_crop_recommendation i
          (CropScoring.sklearnOk predicted classes)).top_recommendations)
      ∧ ∀ c : ℚ, ∃ m,
        ((predict_crop_recommendation i
            (CropScoring.sklearnOk predicted classes)).top_recommendations.filter
          (fun r => decide (r.probability = c)))
        = ((classes.map statCropRec).filter
            (fun r => decide (r.probability = c))).take m)
    ∧ (∀ i : CropInputs,
        SortedDescBy (fun r => r.probability) (generate_fallback_recommendations i)
        ∧ ∀ c : ℚ,
          ((pySortDesc (fun cs => cs.2) (cropsScores i)).filter
            (fun cs => decide (cs.2 = c)))
          = (cropsScores i).filter (fun cs => decide (cs.2 = c)))
    ∧ (∀ (crop : String) (n p k temperature humidity soil_moisture : ℚ),
        SortedDescBy (fun r => r.confidence_percentage)
          (generate_fertilizer_recommendations crop n p k temperature humidity
            soil_moisture)
        ∧ ∀ c : ℚ, ∃ m,
          ((generate_fertilizer_recommendations crop n p k temperature humidity
              soil_moisture).filter
            (fun r => decide (r.confidence_percentage = c)))
          = ((fertCandidates.map (mkFertRec crop n p k temperature
                soil_moisture)).filter
              (fun r => decide (r.confidence_percentage = c))).take m)
    ∧ (∀ (details : String → FertDetail) (predicted : String)
        (labels : List String) (probs : List ℚ),
        SortedDescBy (fun m => m.confidence)
          ((FertilizerPredictor.predict details
            (FertScoring.ok predicted labels probs)).top_recommendations)) := by
  refine ⟨?_, ?_, ?_, ?_⟩
  · intro i predicted classes
    constructor
    · have hs := sortedDescBy_pySortDesc (fun r : CropRec => r.probability)
        (classes.map statCropRec)
      simp only [predict_crop_recommendation]
      exact List.Pairwise.sublist (List.take_sublist 6 _) hs
    · intro c
      rcases filter_take_exists_take (fun r : CropRec => decide (r.probability = c)) 6
        (pySortDesc (fun r : CropRec => r.probability) (classes.map statCropRec))
        with ⟨m, hm⟩
      refine ⟨m, ?_⟩
      simp only [predict_crop_recommendation]
      rw [hm, filter_pySortDesc]
  · intro i
    constructor
    · have hs := sortedDescBy_pySortDesc (fun cs : String × ℚ => cs.2) (cropsScores i)
      unfold generate_fallback_recommendations
      rw [SortedDescBy, List.pairwise_map]
      refine hs.imp ?_
      intro a b hab
      simp only [mkFallbackRec]
      have h1 : max (b.2 * 100) 30 ≤ max (a.2 * 100) 30 :=
        max_le_max (by linarith) le_rfl
      have h2 : min (max (b.2 * 100) 30) 95 ≤ min (max (a.2 * 100) 30) 95 :=
        min_le_min h1 le_rfl
      linarith
    · intro c
      exact filter_pySortDesc (fun cs : String × ℚ => cs.2) c (cropsScores i)
  · intro crop n p k temperature humidity soil_moisture
    constructor
    · have hs := sortedDescBy_pySortDesc (fun r : FertRec => r.confidence_percentage)
        (fertCandidates.map (mkFertRec crop n p k temperature soil_moisture))
      simp only [generate_fertilizer_recommendations]
      exact List.Pairwise.sublist (List.take_sublist 6 _) hs
    · intro c
      rcases filter_take_exists_take
        (fun r : FertRec => decide (r.confidence_percentage = c)) 6
        (pySortDesc (fun r : FertRec => r.confidence_percentage)
          (fertCandidates.map (mkFertRec crop n p k temperature soil_moisture)))
        with ⟨m, hm⟩
      refine ⟨m, ?_⟩
      simp only [generate_fertilizer_recommendations]
      rw [hm, filter_pySortDesc]
  · intro details predicted labels probs
    have h1 : SortedAscBy (getQ probs) (argsortAsc probs) :=
      sortedAscBy_pySortAsc _ _
    have h2 : SortedAscBy (getQ probs) (takeLast 6 (argsortAsc probs)) :=
      List.Pairwise.sublist (List.drop_sublist _ _) h1
    have h3 : (takeLast 6 (argsortAsc probs)).reverse.Pairwise
        (fun i j => getQ probs j ≤ getQ probs i) := by
      rw [List.pairwise_reverse]
      exact h2
    have h4 := pairwise_enum h3
    simp only [FertilizerPredictor.predict, SortedDescBy]
    rw [List.pairwise_map]
    refine h4.imp ?_
    intro a b hab
    show getQ probs b.2 * 100 ≤ getQ probs a.2 * 100
    linarith

/-- C4 counterexample: candidates A then B carry equal probability 1/2; a
stable descending ranking (the claim) would emit A before B, but the
statistical fertilizer path emits B before A, both at confidence 50. -/
theorem ranking_stat_fert_tie_reversed :
    ((FertilizerPredictor.predict dfltDetails
        (FertScoring.ok "A" ["A", "B"] [1/2, 1/2])).top_recommendations.map
      (fun m => m.fertilizer)) = ["B", "A"]
    ∧ ((FertilizerPredictor.predict dfltDetails
        (FertScoring.ok "A" ["A", "B"] [1/2, 1/2])).top_recommendations.map
      (fun m => m.confidence)) = [50, 50]
    ∧ (["B", "A"] : List String) ≠ ["A", "B"] := by
  have hrange : List.range 2 = [0, 1] := by decide
  refine ⟨?_, ?_, by decide⟩ <;>
    norm_num [FertilizerPredictor.predict, argsortAsc, pySortAsc, pySortOrd,
      insertOrd, takeLast, getQ, hrange, dfltDetails, List.enum, List.enumFrom]

/-- Witness for C5: the statistical-crop bound applied to a single class with
probability 1/2, and the rule-based clamp at the all-zero measurement. -/
theorem confidence_probability_domains_witness :
    (30 ≤ (CropRec.mk "Rice" (30/100) 30 "Low").confidence_percentage
      ∧ (CropRec.mk "Rice" (30/100) 30 "Low").confidence_percentage ≤ 95
      ∧ (CropRec.mk "Rice" (30/100) 30 "Low").probability
          = (CropRec.mk "Rice" (30/100) 30 "Low").confidence_percentage / 100
      ∧ 0 ≤ (CropRec.mk "Rice" (30/100) 30 "Low").probability
      ∧ (CropRec.mk "Rice" (30/100) 30 "Low").probability ≤ 1) :=
  confidence_probability_domains.1 ⟨0, 0, 0, 0, 0, 0, 0⟩ _
    (by norm_num [generate_fallback_recommendations, cropsScores, fallbackCrops,
      riceRanges, wheatRanges, maizeRanges, cottonRanges, juteRanges, bananaRanges,
      cropRangeScore, inR, pySortDesc, pySortOrd, insertOrd, mkFallbackRec])

/-- Witness for C10 at a concrete successful prediction with one label. -/
theorem fert_route_rederives_priority_witness :
    fertilizer_recommend dfltDetails true
        (FertScoring.ok "Urea" ["Urea"] [1/2]) "rice" 0 0 0 0 0
      = (FertilizerPredictor.predict dfltDetails
          (FertScoring.ok "Urea" ["Urea"] [1/2])).top_recommendations.map convertMLRec :=
  (fert_route_rederives_priority dfltDetails "Urea" ["Urea"] [1/2] "rice"
    0 0 0 0 0 (by decide)).1

end SmartFarm
